import Mathlib

/-!
# Verification of the tibiantis-bot enemy-death correlation pipeline

A shallow embedding of the pipeline implemented in `app/tasks/death_checker.py`,
`app/scrapers/tibiantis_scraper.py` and `app/repositories/*.py`, together with
theorems settling the specification claims about it.

Strings are modelled as `List Char` and the Python string operations used by the
source (`strip`, `lower`, `replace`, `split`, the `in` substring test) are
translated below with Python semantics.  Datetimes are modelled as integer
seconds together with the offset-aware / offset-naive distinction that Python's
`datetime` enforces on comparisons.
-/

deriving instance DecidableEq for Except

/-- Strings of the modelled program: a Python `str` as its list of characters. -/
abbrev Str := List Char

/-- Python `str.strip()`: remove leading and trailing whitespace. -/
def pyStrip (s : Str) : Str :=
  ((s.dropWhile Char.isWhitespace).reverse.dropWhile Char.isWhitespace).reverse

/-- Python `str.lower()` (ASCII fragment, which covers the scraped text). -/
def toLowerStr (s : Str) : Str :=
  s.map Char.toLower

/-- Python `str.replace(".", "")`: every period is removed, wherever it occurs. -/
def pyRemoveDots (s : Str) : Str :=
  s.filter (fun c => c ≠ '.')

/-- Python `"by" in s`: does `"by"` occur as a (case-sensitive) substring? -/
def containsBy : Str → Bool
  | [] => false
  | [_] => false
  | a :: b :: rest => (a == 'b' && b == 'y') || containsBy (b :: rest)

/-- Python `s.split("by")`: chunks between the left-to-right non-overlapping
occurrences of the substring `"by"`. -/
def splitOnBy : Str → List Str
  | [] => [[]]
  | [c] => [[c]]
  | a :: b :: rest =>
    if a == 'b' && b == 'y' then
      [] :: splitOnBy rest
    else
      match splitOnBy (b :: rest) with
      | [] => [[a]]
      | t :: ts => (a :: t) :: ts

/-- Python `s.split(" and ")`: chunks between the left-to-right non-overlapping
occurrences of the five-character separator `" and "`. -/
def splitOnAnd : Str → List Str
  | ' ' :: 'a' :: 'n' :: 'd' :: ' ' :: rest => [] :: splitOnAnd rest
  | [] => [[]]
  | c :: cs =>
    match splitOnAnd cs with
    | [] => [[c]]
    | t :: ts => (c :: t) :: ts

/-- The suffix of `s` that follows the rightmost occurrence of the substring
`"by"`, or `none` when `"by"` does not occur.  (`"by"` cannot overlap itself,
so this rightmost occurrence is also the last one met by a left-to-right
scan.) -/
def afterLastBy : Str → Option Str
  | [] => none
  | c :: cs =>
    match afterLastBy cs with
    | some t => some t
    | none =>
      match cs with
      | [] => none
      | d :: rest => if c == 'b' && d == 'y' then some rest else none

/-- The suffix of `s` that follows the first occurrence of the substring
`"by"`, or `none` when `"by"` does not occur. -/
def afterFirstBy : Str → Option Str
  | [] => none
  | [_] => none
  | a :: b :: rest => if a == 'b' && b == 'y' then some rest else afterFirstBy (b :: rest)

/-- Trailing-punctuation test used by the claim's wording of the killer-text
normalisation. -/
def isPunctChar (c : Char) : Bool :=
  c == '.' || c == ',' || c == '!' || c == '?' || c == ';' || c == ':'

/-- Strip trailing punctuation and whitespace (the normalisation step exactly
as the specification words it). -/
def stripTrailingPunctWs (s : Str) : Str :=
  (s.reverse.dropWhile (fun c => isPunctChar c || c.isWhitespace)).reverse

/-- Python `str.rstrip(":")`: remove trailing colons. -/
def rstripColon (s : Str) : Str :=
  (s.reverse.dropWhile (fun c => c == ':')).reverse

/-- Numeric value of a digit string. -/
def digitsToNat (ds : Str) : Nat :=
  ds.foldl (fun acc c => 10 * acc + (c.toNat - '0'.toNat)) 0

/-- Python `int(s)`: surrounding whitespace allowed, optional sign, at least
one digit; anything else raises `ValueError` (modelled as `none`). -/
def pyToInt (s : Str) : Option Int :=
  match pyStrip s with
  | '-' :: ds =>
    if !ds.isEmpty && ds.all Char.isDigit then some (-(digitsToNat ds : Int)) else none
  | '+' :: ds =>
    if !ds.isEmpty && ds.all Char.isDigit then some ((digitsToNat ds : Int)) else none
  | ds =>
    if !ds.isEmpty && ds.all Char.isDigit then some ((digitsToNat ds : Int)) else none

/-- A Python `datetime` value: an instant in seconds, either offset-aware
(position on the UTC timeline) or offset-naive (bare wall-clock value). -/
inductive PyDatetime where
  | aware (t : Int)
  | naive (t : Int)
deriving DecidableEq, Repr

/-- Python `<` on datetimes: comparable only when both sides are aware or
both naive; mixing them raises `TypeError`. -/
def pyLt : PyDatetime → PyDatetime → Except String Bool
  | .aware a, .aware b => .ok (decide (a < b))
  | .naive a, .naive b => .ok (decide (a < b))
  | _, _ => .error "TypeError: cannot compare offset-naive and offset-aware datetimes"

/-- What `dateutil.parser.parse(value, tzinfos={CEST: 7200, CET: 3600})`
makes of a timestamp string: unparseable; parseable with no recognised
timezone abbreviation (wall-clock only); or parseable with the CEST / CET
abbreviation attached. -/
inductive TimeParse where
  | bad
  | plain (wall : Int)
  | cest (wall : Int)
  | cet (wall : Int)
deriving DecidableEq, Repr

/-- tibiantis_scraper.py:228-233 (`_parse_death_data`): the parsed death
timestamp keeps whatever the parser produced — an aware instant when an
abbreviation was recognised (wall-clock minus the fixed offset), a NAIVE
datetime when none was, `None` on parse failure. -/
def parseDeathTime : TimeParse → Option PyDatetime
  | .bad => none
  | .plain w => some (.naive w)
  | .cest w => some (.aware (w - 7200))
  | .cet w => some (.aware (w - 3600))

/-- tibiantis_scraper.py:103-124 (`get_character_data`): the parsed
`last login` value is rebuilt via `datetime(..., tzinfo=None)`, keeping the
wall-clock fields and dropping any offset — always naive; `None` on parse
failure. -/
def parseLoginTime : TimeParse → Option PyDatetime
  | .bad => none
  | .plain w => some (.naive w)
  | .cest w => some (.naive w)
  | .cet w => some (.naive w)

/-- One data row of the "Latest Deaths" table: the two cell texts
(`cols[0].text`, `cols[1].text`). -/
structure DeathRow where
  timeRaw : Str
  killerRaw : Str
deriving DecidableEq, Repr

/-- A death event as `_parse_death_data` produces it. -/
structure Death where
  time : Option PyDatetime
  killer : Str
deriving DecidableEq, Repr

/-- tibiantis_scraper.py:201-244 `_parse_death_data`.  The argument is `none`
when the page's second `tabi` table is missing or lacks the "Latest Deaths"
label (no recorded deaths); otherwise the list of data rows (the header row
already skipped, as in the source's `[1:]`).  `dparse` abstracts
`dateutil.parser.parse` with the CEST/CET tzinfos table. -/
def parse_death_data (dparse : Str → TimeParse) : Option (List DeathRow) → List Death
  | none => []
  | some rows =>
    rows.map (fun r => { time := parseDeathTime (dparse (pyStrip r.timeRaw)),
                         killer := pyStrip r.killerRaw })

/-- tibiantis_scraper.py:268-301 `get_character_deaths_async`: the HTTP GET
and HTML parse outcome is the argument; ANY exception on the fetch path is
caught and an empty death list returned (`except Exception: ... return []`),
and a falsy soup also yields `[]`. -/
def get_character_deaths_async (dparse : Str → TimeParse)
    (response : Except String (Option (List DeathRow))) : List Death :=
  match response with
  | .error _ => []
  | .ok page => parse_death_data dparse page

/-- death_checker.py:118-123: the killer-candidate extraction exactly as
implemented — Python's substring test `"by" in killer`, then
`killer.split("by")[-1].strip().lower().replace(".", "")`, then
`[name.strip() for name in killer_string.split(" and ")]`.  `none` models
the `"by" in killer` test failing (the event then never matches). -/
def extract_candidate_killers (killer : Str) : Option (List Str) :=
  if containsBy killer then
    some ((splitOnAnd (pyRemoveDots (toLowerStr (pyStrip ((splitOnBy killer).getLastD []))))).map pyStrip)
  else none

/-- Candidate extraction as claim C2 words it: the substring following the
FIRST occurrence of the delimiter "by"; trailing punctuation and whitespace
stripped; lower-cased; split on " and ". -/
def extract_candidate_killers_claim (killer : Str) : Option (List Str) :=
  match afterFirstBy killer with
  | none => none
  | some rest => some (splitOnAnd (toLowerStr (stripTrailingPunctWs rest)))

/-- Candidate extraction as amended: the substring following the LAST
occurrence of the substring "by"; whitespace stripped at both ends;
lower-cased; ALL periods removed; split on " and " with each candidate
stripped. -/
def extract_candidate_killers_amended (killer : Str) : Option (List Str) :=
  match afterLastBy killer with
  | none => none
  | some rest => some ((splitOnAnd (pyRemoveDots (toLowerStr (pyStrip rest)))).map pyStrip)

/-- An emitted kill match (death_checker.py:130-134). -/
structure KillEntry where
  character_name : Str
  time : Option PyDatetime
  killer : Str
deriving DecidableEq, Repr

/-- death_checker.py:125-136: scan the candidates in order; at the first one
found in the enemy set, append ONE entry carrying the original killer text
and break. -/
def matchEntriesFor (character_name : Str) (enemy_names : List Str) (d : Death) :
    List KillEntry :=
  match extract_candidate_killers d.killer with
  | none => []
  | some killer_names =>
    if killer_names.any (fun kn => enemy_names.contains kn) then
      [{ character_name := character_name, time := d.time, killer := d.killer }]
    else []

/-- death_checker.py:110-138: the per-death loop of
`_process_character_deaths`.  A death with no timestamp, or one strictly
older than `now - 12h`, is skipped; the comparison itself can raise
(`pyLt`), and a raised exception abandons the whole per-character result,
collected entries included. -/
def processDeaths (now : Int) (character_name : Str) (enemy_names : List Str) :
    List Death → Except String (List KillEntry)
  | [] => .ok []
  | d :: ds =>
    match d.time with
    | none => processDeaths now character_name enemy_names ds
    | some tm =>
      match pyLt tm (.aware (now - 43200)) with
      | .error e => .error e
      | .ok true => processDeaths now character_name enemy_names ds
      | .ok false =>
        match processDeaths now character_name enemy_names ds with
        | .error e => .error e
        | .ok rest => .ok (matchEntriesFor character_name enemy_names d ++ rest)

/-- A tracked character row (db/models/character.py; `name` and `level` are
nullable columns — an absent name is modelled by the empty string, which is
what the `if not character.name` guard tests). -/
structure Character where
  id : Nat
  name : Str
  level : Option Int
deriving DecidableEq, Repr

/-- Modelled from the spec: `CharacterRepository.get_high_level_characters`
is called at death_checker.py:51 but is not defined anywhere in the
repository; per spec §4.3 the roster is "filtered to a minimum level
threshold (default 30 — characters below this threshold are excluded from
death-checking)". -/
def get_high_level_characters (roster : List Character) (min_level : Int) :
    List Character :=
  roster.filter (fun c =>
    match c.level with
    | some l => decide (min_level ≤ l)
    | none => false)

/-- death_checker.py:54: the enemy-name set — each enemy row's linked
character name lower-cased, skipping rows with no linked character or no
name. -/
def enemy_name_set (enemies : List (Option Character)) : List Str :=
  enemies.filterMap (fun oc =>
    match oc with
    | some c => if c.name.isEmpty then none else some (toLowerStr c.name)
    | none => none)

/-- death_checker.py:89-138 `_process_character_deaths` for one character:
the empty-name guard, the death-log fetch (network modelled as a function
from character name to fetch outcome), then the per-death loop.  The second
component records which names were actually fetched. -/
def process_character_deaths_traced (net : Str → Except String (Option (List DeathRow)))
    (dparse : Str → TimeParse) (now : Int) (enemy_names : List Str) (c : Character) :
    Except String (List KillEntry) × List Str :=
  if c.name.isEmpty then (.ok [], [])
  else (processDeaths now c.name enemy_names (get_character_deaths_async dparse (net c.name)),
        [c.name])

/-- `_process_character_deaths` proper (the traced variant without its
instrumentation). -/
def process_character_deaths (net : Str → Except String (Option (List DeathRow)))
    (dparse : Str → TimeParse) (now : Int) (enemy_names : List Str) (c : Character) :
    Except String (List KillEntry) :=
  (process_character_deaths_traced net dparse now enemy_names c).1

/-- `asyncio.gather(*tasks, return_exceptions=True)` (death_checker.py:66):
one result slot per task, index-aligned; a slot holds a captured exception
exactly when its task raised, and tasks are independent. -/
def gatherSlots {α β : Type} (f : α → β) (xs : List α) : List β :=
  xs.map f

/-- death_checker.py:69-74: drop exception slots (logging them), concatenate
the successful entry lists. -/
def collectSuccesses (slots : List (Except String (List KillEntry))) : List KillEntry :=
  slots.foldr (fun r acc =>
    match r with
    | .ok l => l ++ acc
    | .error _ => acc) []

/-- A channel message as the notifier observes it: author, whether the
content carries the fixed "ENEMY KILLS TABLE" header marker, and the entries
rendered in it (empty for the placeholder body). -/
structure Message where
  fromBot : Bool
  hasKillsHeader : Bool
  entriesShown : List KillEntry
deriving DecidableEq, Repr

/-- death_checker.py:161-171: scan the 50 most recent messages (the channel
list is newest-first, as `channel.history` yields them) and delete those
authored by the bot whose content contains the header marker; older messages
are untouched. -/
def delete_old_reports (channel : List Message) : List Message :=
  (channel.take 50).filter (fun m => !(m.fromBot && m.hasKillsHeader)) ++ channel.drop 50

/-- death_checker.py:140-215 `_send_enemy_kills_table`: delete prior reports,
then send one new message that always opens with the header marker — with a
placeholder body ("No enemy kills recorded recently.") when the entry list
is empty. -/
def send_enemy_kills_table (channel : List Message) (entries : List KillEntry) :
    List Message :=
  { fromBot := true, hasKillsHeader := true, entriesShown := entries } ::
    delete_old_reports channel

/-- death_checker.py:76-83: the task publishes the table only when the
collected kill-match list is non-empty; an empty batch is merely logged and
nothing is sent. -/
def report_step (channel : List Message) (entries : List KillEntry) : List Message :=
  if entries.isEmpty then channel else send_enemy_kills_table channel entries

/-- Number of live report messages (bot-authored, header-bearing) in the
channel. -/
def countReports (channel : List Message) : Nat :=
  (channel.filter (fun m => m.fromBot && m.hasKillsHeader)).length

/-- death_checker.py:25-87 `check_character_deaths_by_enemies`: filter the
roster to the level threshold, fan the per-character tasks out, collect
non-exception results, publish when non-empty.  Returns the collected
matches and the channel after reporting. -/
def check_character_deaths_by_enemies (net : Str → Except String (Option (List DeathRow)))
    (dparse : Str → TimeParse) (now : Int) (roster : List Character)
    (enemy_names : List Str) (channel : List Message) :
    List KillEntry × List Message :=
  let chars := get_high_level_characters roster 30
  let slots := gatherSlots (process_character_deaths net dparse now enemy_names) chars
  let killed := collectSuccesses slots
  (killed, report_step channel killed)

/-- The death-log fetches a correlation run actually issues (instrumentation
of the same pipeline). -/
def death_check_fetched_names (net : Str → Except String (Option (List DeathRow)))
    (dparse : Str → TimeParse) (now : Int) (enemy_names : List Str)
    (roster : List Character) : List Str :=
  (get_high_level_characters roster 30).foldr
    (fun c acc => (process_character_deaths_traced net dparse now enemy_names c).2 ++ acc) []

/-- A SQLAlchemy session over the character table: the committed rows and the
session's staged view (pending adds/deletes/updates included, which is what
queries on the session observe). -/
structure Sess where
  committed : List Character
  staged : List Character
deriving DecidableEq, Repr

/-- `session.add`. -/
def sessAdd (s : Sess) (c : Character) : Sess :=
  { s with staged := s.staged ++ [c] }

/-- `session.delete`. -/
def sessDelete (s : Sess) (cid : Nat) : Sess :=
  { s with staged := s.staged.filter (fun r => r.id != cid) }

/-- `session.commit`: the environment decides whether the write fails; on
success the staged state becomes committed, on failure an exception is
raised and nothing is persisted. -/
def sessCommit (commitFails : Bool) (s : Sess) : Except String Sess :=
  if commitFails then .error "DatabaseError: commit failed"
  else .ok { committed := s.staged, staged := s.staged }

/-- `session.rollback`: the staged view reverts to the committed rows. -/
def sessRollback (s : Sess) : Sess :=
  { s with staged := s.committed }

/-- `query(Character).filter(Character.id == id).first()`. -/
def sessGetById (s : Sess) (cid : Nat) : Option Character :=
  s.staged.find? (fun r => r.id == cid)

/-- character_repository.py:87-128 `add_by_name`: scrape first (a falsy
result raises ValueError before any write), then add + commit; a commit
failure is logged, ROLLED BACK and re-raised.  Errors carry the session
state the caller is left with. -/
def add_by_name (scraped : Option (List (Str × AttrVal))) (commitFails : Bool)
    (s : Sess) (c : Character) : Except (String × Sess) Sess :=
  match scraped with
  | none => .error ("ValueError: character does not exist on Tibiantis server", s)
  | some _ =>
    let s1 := sessAdd s c
    match sessCommit commitFails s1 with
    | .ok s2 => .ok s2
    | .error e => .error (e, sessRollback s1)

/-- A partial update: `None` values are ignored (base_repository.py:99-101's
`value is not None` guard). -/
structure CharUpdate where
  newName : Option Str
  newLevel : Option Int
deriving DecidableEq, Repr

/-- Apply the non-`None` fields of an update to a row. -/
def apply_update (u : CharUpdate) (c : Character) : Character :=
  { c with
    name := u.newName.getD c.name,
    level := match u.newLevel with | some l => some l | none => c.level }

/-- base_repository.py:78-111 `update`: a missing id returns `None`;
otherwise mutate the row, then commit; a commit failure is logged, ROLLED
BACK and re-raised. -/
def repo_update (commitFails : Bool) (s : Sess) (entity_id : Nat) (u : CharUpdate) :
    Except (String × Sess) (Option Character × Sess) :=
  match sessGetById s entity_id with
  | none => .ok (none, s)
  | some _ =>
    let s1 : Sess :=
      { s with staged := s.staged.map (fun r => if r.id == entity_id then apply_update u r else r) }
    match sessCommit commitFails s1 with
    | .ok s2 => .ok (sessGetById s2 entity_id, s2)
    | .error e => .error (e, sessRollback s1)

/-- character_repository.py:130-158 `delete_character_by_id`: unlike every
other write operation in the repositories, the `except` block here logs and
re-raises WITHOUT calling `self.db.rollback()`.  (A missing id would raise
AttributeError at line 148, before any write.) -/
def delete_character_by_id (commitFails : Bool) (s : Sess) (character_id : Nat) :
    Except (String × Sess) Sess :=
  match sessGetById s character_id with
  | none => .error ("AttributeError: NoneType object has no attribute name", s)
  | some c =>
    let s1 := sessDelete s c.id
    match sessCommit commitFails s1 with
    | .ok s2 => .ok s2
    | .error e => .error (e, s1)

/-- character_repository.py:160-195 `delete_character_by_name` (this variant
does roll back). -/
def delete_character_by_name (commitFails : Bool) (s : Sess) (name : Str) :
    Except (String × Sess) Sess :=
  match s.staged.find? (fun r => r.name == name) with
  | none => .error ("ValueError: character does not exist in database", s)
  | some c =>
    let s1 := sessDelete s c.id
    match sessCommit commitFails s1 with
    | .ok s2 => .ok s2
    | .error e => .error (e, sessRollback s1)

/-- The recognised label → field map of `get_character_data`
(tibiantis_scraper.py:73-85). -/
def fields_to_scrape : List (Str × Str) :=
  [("name".data, "name".data),
   ("sex".data, "sex".data),
   ("vocation".data, "vocation".data),
   ("level".data, "level".data),
   ("world".data, "world".data),
   ("residence".data, "residence".data),
   ("house".data, "house".data),
   ("guild membership".data, "guild_membership".data),
   ("last login".data, "last_login".data),
   ("comment".data, "comment".data),
   ("account status".data, "account_status".data)]

/-- A parsed character-attribute value: plain text, the int-coerced level, or
the date-coerced last login. -/
inductive AttrVal where
  | vstr (s : Str)
  | vint (n : Option Int)
  | vdate (d : Option PyDatetime)
deriving DecidableEq, Repr

/-- Python dict assignment `d[k] = v` on an association list. -/
def dictInsert (d : List (Str × AttrVal)) (k : Str) (v : AttrVal) :
    List (Str × AttrVal) :=
  if d.any (fun p => p.1 == k) then
    d.map (fun p => if p.1 == k then (k, v) else p)
  else d ++ [(k, v)]

/-- tibiantis_scraper.py:92-135: fold over the `tr.hover` rows building the
`character_data` dict; rows with fewer than two cells are skipped, keys are
normalised (`strip().lower().rstrip(':')`), unrecognised keys ignored,
`level` int-coerced (`None` on failure), `last login` date-coerced with the
timezone stripped (`None` on failure). -/
def parse_attr_rows (dparse : Str → TimeParse) (rows : List (List Str)) :
    List (Str × AttrVal) :=
  rows.foldl (fun acc cols =>
    match cols with
    | c0 :: c1 :: _ =>
      let key := rstripColon (toLowerStr (pyStrip c0))
      let value := pyStrip c1
      match (fields_to_scrape.find? (fun p => p.1 == key)).map (fun p => p.2) with
      | none => acc
      | some field_name =>
        if field_name == "last_login".data then
          dictInsert acc field_name (.vdate (parseLoginTime (dparse value)))
        else if field_name == "level".data then
          dictInsert acc field_name (.vint (pyToInt value))
        else
          dictInsert acc field_name (.vstr value)
    | _ => acc) []

/-- tibiantis_scraper.py:35-146 `get_character_data`.  The argument is the
`scrape_page` outcome: `None` when the request or HTML parse failed (network
errors are caught inside `make_request` and yield `None`, and the function's
own `except` clauses also return `None`); otherwise the `tr.hover` rows,
each as its list of cell texts.  Zero rows ⇒ `None` ("No data found"). -/
def get_character_data (dparse : Str → TimeParse)
    (page : Option (List (List Str))) : Option (List (Str × AttrVal)) :=
  match page with
  | none => none
  | some rows =>
    if rows.isEmpty then none
    else some (parse_attr_rows dparse rows)

/-- The 12-hour window test as a predicate: a death is kept (not discarded)
when its timestamp is known, offset-aware, and not older than `now - 12h`.
Mirrors the skip condition at death_checker.py:115. -/
def keptDeath (now : Int) (d : Death) : Bool :=
  match d.time with
  | none => false
  | some (.aware t) => decide (now - 43200 ≤ t)
  | some (.naive _) => false

/-- The death's timestamp is absent or offset-aware (the shape every
CEST/CET-labelled timestamp has; naive timestamps are claim C10's
concern). -/
def timeAwareOrNone (d : Death) : Bool :=
  match d.time with
  | none => true
  | some (.aware _) => true
  | some (.naive _) => false

/-! ### Concrete fixtures used by the boundary and isolation examples -/

/-- A run instant for the examples (seconds; `now - 12h = -200`). -/
def now0 : Int := 43000

/-- An enemy-name set containing just "evil bob". -/
def enemy0 : List Str := ["evil bob".data]

/-- An enemy-name set containing "evil bob" and "evil alice". -/
def bothEnemies : List Str := ["evil bob".data, "evil alice".data]

/-- Tracked characters for the examples. -/
def alice : Character := { id := 1, name := "alice".data, level := some 40 }

/-- Second tracked character. -/
def bob : Character := { id := 2, name := "bob".data, level := some 45 }

/-- Third tracked character. -/
def carol : Character := { id := 3, name := "carol".data, level := some 50 }

/-- A death row whose timestamp string ("t1") carries a CEST label and whose
killer text names an enemy. -/
def goodRow : DeathRow :=
  { timeRaw := "t1".data, killerRaw := "Killed by Evil Bob.".data }

/-- A death row whose timestamp string ("t2") parses with NO recognised
timezone abbreviation. -/
def badRow : DeathRow :=
  { timeRaw := "t2".data, killerRaw := "Killed by Evil Alice.".data }

/-- The date-parser behaviour for the examples: "t1" parses with a CEST
label (wall-clock 50000, hence aware instant 42800), "t2" parses with no
abbreviation (wall-clock 999, hence naive), anything else fails. -/
def dparse0 : Str → TimeParse := fun s =>
  if s == "t1".data then .cest 50000
  else if s == "t2".data then .plain 999
  else .bad

/-- A network where bob's fetch raises and every other fetch succeeds with
one enemy-killed death row. -/
def net3 : Str → Except String (Option (List DeathRow)) := fun n =>
  if n == bob.name then .error "httpx.ConnectError: network failure"
  else .ok (some [goodRow])

/-- A death exactly 12 hours + 1 second before `now0`. -/
def deathOld : Death :=
  { time := some (.aware (now0 - 43201)), killer := "Killed by Evil Bob.".data }

/-- A death 11 hours 59 minutes before `now0`. -/
def deathFresh : Death :=
  { time := some (.aware (now0 - 43140)), killer := "Killed by Evil Bob.".data }

/-- An in-window death naming two enemies in one killer text. -/
def deathDouble : Death :=
  { time := some (.aware 42800), killer := "Killed by Evil Bob and Evil Alice.".data }

/-- A concrete kill-match entry. -/
def sampleEntry : KillEntry :=
  { character_name := "alice".data, time := some (.aware 42800),
    killer := "Killed by Evil Bob.".data }

/-- A concrete two-row death table. -/
def deathRows0 : List DeathRow := [goodRow, badRow]

/-- Unfolding equation for `getLastD` on a cons cell. -/
theorem getLastD_cons' {α : Type} (x d : α) (l : List α) :
    (x :: l).getLastD d = l.getLastD x := by
  cases l <;> rfl

/-- The last element of a non-empty list does not depend on the `getLastD`
default. -/
theorem getLastD_irrel {α : Type} (l : List α) (h : l ≠ []) (d d' : α) :
    l.getLastD d = l.getLastD d' := by
  cases l with
  | nil => exact absurd rfl h
  | cons y t => rw [getLastD_cons', getLastD_cons']

/-- Unfolding equation for `afterLastBy` on a cons cell. -/
theorem afterLastBy_unfold (c : Char) (cs : List Char) :
    afterLastBy (c :: cs)
      = match afterLastBy cs with
        | some t => some t
        | none =>
          match cs with
          | [] => none
          | d :: rest => if c == 'b' && d == 'y' then some rest else none := by
  cases cs <;> rfl

/-- `str.split` never returns an empty list (Python guarantees at least one
chunk). -/
theorem splitOnBy_ne_nil (s : Str) : splitOnBy s ≠ [] := by
  induction s using splitOnBy.induct with
  | case1 => simp [splitOnBy]
  | case2 c => simp [splitOnBy]
  | case3 a b rest h ih => simp [splitOnBy, h]
  | case4 a b rest h hsp ih => exact absurd hsp ih
  | case5 a b rest h t ts hsp ih => simp [splitOnBy, h, hsp]

/-- When `"by"` does not occur, `split("by")` returns the whole string as its
single chunk. -/
theorem splitOnBy_no_by (s : Str) : containsBy s = false → splitOnBy s = [s] := by
  induction s using splitOnBy.induct with
  | case1 => intro _; simp [splitOnBy]
  | case2 c => intro _; simp [splitOnBy]
  | case3 a b rest h ih =>
    intro hc
    simp [containsBy, h] at hc
  | case4 a b rest h hsp ih => exact absurd hsp (splitOnBy_ne_nil _)
  | case5 a b rest h t ts hsp ih =>
    intro hc
    simp only [containsBy, Bool.or_eq_false_iff] at hc
    have := ih hc.2
    rw [hsp] at this
    obtain ⟨ht, hts⟩ := List.cons_eq_cons.mp this
    simp [splitOnBy, h, hsp, ht, hts]

/-- A single-chunk `split("by")` result means `"by"` does not occur. -/
theorem splitOnBy_single (s : Str) (t : Str) (hsp : splitOnBy s = [t]) :
    containsBy s = false := by
  induction s using splitOnBy.induct generalizing t with
  | case1 => simp [containsBy]
  | case2 c => simp [containsBy]
  | case3 a b rest h ih =>
    exfalso
    simp only [splitOnBy, h, if_pos] at hsp
    have := List.cons_eq_cons.mp hsp
    exact splitOnBy_ne_nil rest this.2
  | case4 a b rest h hsp2 ih => exact absurd hsp2 (splitOnBy_ne_nil _)
  | case5 a b rest h t' ts hsp2 ih =>
    have hL : splitOnBy (a :: b :: rest) = (a :: t') :: ts := by
      simp [splitOnBy, h, hsp2]
    rw [hL] at hsp
    obtain ⟨_, hts⟩ := List.cons_eq_cons.mp hsp
    subst hts
    have := ih t' hsp2
    simp [containsBy, h, this]

/-- `afterLastBy` finds an occurrence exactly when the `in` test does. -/
theorem afterLastBy_isSome (s : Str) : (afterLastBy s).isSome = containsBy s := by
  induction s using containsBy.induct with
  | case1 => simp [afterLastBy, containsBy]
  | case2 c => simp [afterLastBy, containsBy]
  | case3 a b rest ih =>
    rw [afterLastBy_unfold]
    cases hal : afterLastBy (b :: rest) with
    | some t =>
      have hc : containsBy (b :: rest) = true := by rw [← ih, hal]; rfl
      simp [containsBy, hc]
    | none =>
      have hc : containsBy (b :: rest) = false := by rw [← ih, hal]; rfl
      cases hby : a == 'b' && b == 'y' <;> simp [containsBy, hc, hby]

/-- The final chunk of Python's `split("by")` is the suffix after the last
occurrence of `"by"` (the whole string when `"by"` is absent). -/
theorem splitOnBy_getLastD (s : Str) :
    (splitOnBy s).getLastD [] = (afterLastBy s).getD s := by
  induction s using splitOnBy.induct with
  | case1 => simp [splitOnBy, afterLastBy]
  | case2 c => simp [splitOnBy, afterLastBy]
  | case3 a b rest h ih =>
    simp only [beq_iff_eq, Bool.and_eq_true] at h
    obtain ⟨ha, hb⟩ := h
    subst ha; subst hb
    have hL : splitOnBy ('b' :: 'y' :: rest) = [] :: splitOnBy rest := by
      simp [splitOnBy]
    have hmid : afterLastBy ('y' :: rest) = afterLastBy rest := by
      rw [afterLastBy_unfold]
      cases hal : afterLastBy rest with
      | some t => rfl
      | none => cases rest <;> simp
    cases hal : afterLastBy rest with
    | some t' =>
      have hR : afterLastBy ('b' :: 'y' :: rest) = some t' := by
        rw [afterLastBy_unfold, hmid, hal]
      rw [hL, hR, getLastD_cons']
      rw [hal] at ih
      exact ih
    | none =>
      have hR : afterLastBy ('b' :: 'y' :: rest) = some rest := by
        rw [afterLastBy_unfold, hmid, hal]
        simp
      rw [hL, hR, getLastD_cons']
      rw [hal] at ih
      exact ih
  | case4 a b rest h hsp ih => exact absurd hsp (splitOnBy_ne_nil _)
  | case5 a b rest h t ts hsp ih =>
    have hL : splitOnBy (a :: b :: rest) = (a :: t) :: ts := by
      simp [splitOnBy, h, hsp]
    have hcond : (a == 'b' && b == 'y') = false := by
      cases hx : a == 'b' && b == 'y'
      · rfl
      · exact absurd hx h
    have hR : afterLastBy (a :: b :: rest)
        = match afterLastBy (b :: rest) with
          | some t' => some t'
          | none => none := by
      rw [afterLastBy_unfold]
      cases afterLastBy (b :: rest) with
      | some t' => rfl
      | none => simp [hcond]
    cases hal : afterLastBy (b :: rest) with
    | some t' =>
      have hcb : containsBy (b :: rest) = true := by rw [← afterLastBy_isSome, hal]; rfl
      have hts : ts ≠ [] := by
        intro hts0
        subst hts0
        have := splitOnBy_single (b :: rest) t hsp
        rw [this] at hcb
        exact Bool.false_ne_true hcb
      rw [hal] at hR
      rw [hL, hR]
      rw [hsp, hal] at ih
      have ih' : (t :: ts).getLastD [] = t' := ih
      show ((a :: t) :: ts).getLastD [] = t'
      calc ((a :: t) :: ts).getLastD [] = ts.getLastD (a :: t) := getLastD_cons' _ _ _
        _ = ts.getLastD t := getLastD_irrel ts hts _ _
        _ = (t :: ts).getLastD [] := (getLastD_cons' _ _ _).symm
        _ = t' := ih'
    | none =>
      have hcb : containsBy (b :: rest) = false := by rw [← afterLastBy_isSome, hal]; rfl
      have hsingle := splitOnBy_no_by (b :: rest) hcb
      rw [hsp] at hsingle
      obtain ⟨ht, hts⟩ := List.cons_eq_cons.mp hsingle
      rw [hal] at hR
      rw [hL, hR, ht, hts]
      show ((a :: b :: rest) :: ([] : List Str)).getLastD [] = a :: b :: rest
      rw [getLastD_cons']
      rfl

/-- C2 (amended): for every raw killer text the candidate killers are
obtained from the substring following the LAST occurrence of the substring
"by" (if "by" is absent the event yields no candidates and never matches);
the extracted substring is whitespace-stripped at both ends, lower-cased,
has ALL its periods removed, and is split on " and " with each candidate
stripped. -/
theorem claim_c2_killer_extraction (killer : Str) :
    extract_candidate_killers killer = extract_candidate_killers_amended killer
    ∧ (extract_candidate_killers killer = none →
        ∀ (cn : Str) (enemy_names : List Str) (tm : Option PyDatetime),
          matchEntriesFor cn enemy_names { time := tm, killer := killer } = []) := by
  constructor
  · unfold extract_candidate_killers extract_candidate_killers_amended
    cases hal : afterLastBy killer with
    | none =>
      have hc : containsBy killer = false := by
        rw [← afterLastBy_isSome, hal]
        rfl
      simp [hc]
    | some t =>
      have hc : containsBy killer = true := by
        rw [← afterLastBy_isSome, hal]
        rfl
      have hlast' : (splitOnBy killer).getLastD [] = t := by
        have h2 := splitOnBy_getLastD killer
        rw [hal] at h2
        exact h2
      rw [hlast']
      simp [hc]
  · intro hnone cn enemy_names tm
    unfold matchEntriesFor
    simp [hnone]

/-- C2 as stated is false at the input "Killed by Abby.": the code takes the
substring after the LAST occurrence of the substring "by" (which here is the
final "by" inside "Abby", leaving only "." and hence one empty candidate),
while the claim's first-occurrence reading would give the candidate
" abby". -/
theorem claim_c2_counterexample :
    extract_candidate_killers ("Killed by Abby.".data) = some [[]]
    ∧ extract_candidate_killers_claim ("Killed by Abby.".data) = some [(" abby".data)]
    ∧ extract_candidate_killers ("Killed by Abby.".data)
        ≠ extract_candidate_killers_claim ("Killed by Abby.".data) := by
  refine ⟨by decide, by decide, by decide⟩

/-- C2 witness: "Died of life loss." has no "by", yields no candidates and
never matches. -/
theorem claim_c2_witness :
    extract_candidate_killers ("Died of life loss.".data) = none
    ∧ matchEntriesFor ("victim".data) enemy0
        { time := some (.aware 42800), killer := "Died of life loss.".data } = [] := by
  refine ⟨by decide, ?_⟩
  exact (claim_c2_killer_extraction ("Died of life loss.".data)).2 (by decide) _ _ _

/-- C1 (amended, level filter modelled from the spec): the characters whose
death logs a correlation run fetches are exactly the tracked characters with
level ≥ 30 AND a non-empty name, in roster order; every character below the
threshold is excluded, and so is every above-threshold character whose name
is empty (death_checker.py:100). -/
theorem claim_c1_fetch_set (net : Str → Except String (Option (List DeathRow)))
    (dparse : Str → TimeParse) (now : Int) (enemy_names : List Str)
    (roster : List Character) :
    death_check_fetched_names net dparse now enemy_names roster
      = ((get_high_level_characters roster 30).filter (fun c => !c.name.isEmpty)).map
          (fun c => c.name) := by
  unfold death_check_fetched_names
  generalize get_high_level_characters roster 30 = chars
  induction chars with
  | nil => rfl
  | cons c cs ih =>
    have hstep : List.foldr
        (fun c acc => (process_character_deaths_traced net dparse now enemy_names c).2 ++ acc)
        [] (c :: cs)
        = (process_character_deaths_traced net dparse now enemy_names c).2
          ++ List.foldr
              (fun c acc => (process_character_deaths_traced net dparse now enemy_names c).2 ++ acc)
              [] cs := rfl
    rw [hstep, ih]
    by_cases h : c.name = []
    · have htr : (process_character_deaths_traced net dparse now enemy_names c).2 = [] := by
        simp [process_character_deaths_traced, h]
      rw [htr]
      simp [List.filter_cons, h]
    · have htr : (process_character_deaths_traced net dparse now enemy_names c).2 = [c.name] := by
        simp [process_character_deaths_traced, h]
      rw [htr]
      simp [List.filter_cons, h]

/-- C1 as stated is false: a level-35 tracked character whose name is empty
(the name column is nullable) passes the level-threshold filter, yet
`_process_character_deaths` returns before fetching its death log
(death_checker.py:100), so the fetched set is NOT exactly the level ≥ 30
roster. -/
theorem claim_c1_counterexample :
    get_high_level_characters [{ id := 7, name := [], level := some 35 }] 30
      = [{ id := 7, name := [], level := some 35 }]
    ∧ death_check_fetched_names (fun _ => .ok none) (fun _ => .bad) 0 []
        [{ id := 7, name := [], level := some 35 }] = [] := by
  exact ⟨rfl, rfl⟩

/-- C4 (amended): `get_character_data` returns `None` exactly when the page
fetch failed or the document has zero labelled attribute rows — the
"not found" and network-failure outcomes are the SAME value, not distinct
signals — and otherwise returns the populated record. -/
theorem claim_c4_signals (dparse : Str → TimeParse)
    (page : Option (List (List Str))) :
    get_character_data dparse page = none ↔ (page = none ∨ page = some []) := by
  cases page with
  | none => simp [get_character_data]
  | some rows =>
    cases rows with
    | nil => simp [get_character_data]
    | cons r rs => simp [get_character_data]

/-- C4 as stated is false: the "not found" signal (a page with zero labelled
rows) and the network-failure signal (no page at all) are both `None` — the
three outcomes are not mutually distinct. -/
theorem claim_c4_counterexample :
    get_character_data (fun _ => .bad) none = none
    ∧ get_character_data (fun _ => .bad) (some []) = none := by
  exact ⟨rfl, rfl⟩

/-- Deleting old reports removes every live report when the whole channel is
inside the 50-message scan window. -/
theorem countReports_delete (channel : List Message) (h : channel.length ≤ 50) :
    countReports (delete_old_reports channel) = 0 := by
  unfold countReports delete_old_reports
  rw [List.take_of_length_le h, List.drop_eq_nil_of_le h, List.append_nil]
  rw [List.filter_filter]
  simp

/-- Publishing into a channel that fits the scan window leaves exactly one
live report. -/
theorem countReports_send (channel : List Message) (entries : List KillEntry)
    (h : channel.length ≤ 50) :
    countReports (send_enemy_kills_table channel entries) = 1 := by
  have hdel := countReports_delete channel h
  unfold send_enemy_kills_table
  unfold countReports at hdel ⊢
  simp [List.filter_cons, hdel]

/-- The delete pass never lengthens the channel. -/
theorem delete_old_reports_length_le (channel : List Message) :
    (delete_old_reports channel).length ≤ channel.length := by
  unfold delete_old_reports
  have h1 : ((channel.take 50).filter (fun m => !(m.fromBot && m.hasKillsHeader))).length
      ≤ (channel.take 50).length := List.length_filter_le _ _
  have h2 : (channel.take 50).length + (channel.drop 50).length = channel.length := by
    rw [← List.length_append, List.take_append_drop]
  rw [List.length_append]
  omega

/-- C3 (amended): a correlation run publishes its kill-match report ONLY when
the batch is non-empty — an empty batch is just logged, no placeholder is
sent and the channel is untouched.  For a non-empty batch, replace-in-place
holds: publishing once, or the same batch twice in a row, leaves exactly one
live report message (provided the prior channel fits the 50-message scan
window). -/
theorem claim_c3_replace_in_place (channel : List Message) (entries : List KillEntry)
    (hne : entries ≠ []) (hlen : channel.length ≤ 49) :
    countReports (report_step channel entries) = 1
    ∧ countReports (report_step (report_step channel entries) entries) = 1 := by
  have hne' : entries.isEmpty = false := by
    cases entries with
    | nil => exact absurd rfl hne
    | cons e es => rfl
  have h50 : channel.length ≤ 50 := by omega
  have hone : countReports (report_step channel entries) = 1 := by
    simp only [report_step, hne', Bool.false_eq_true, if_false]
    exact countReports_send channel entries h50
  refine ⟨hone, ?_⟩
  have hlen2 : (send_enemy_kills_table channel entries).length ≤ 50 := by
    unfold send_enemy_kills_table
    have := delete_old_reports_length_le channel
    simp only [List.length_cons]
    omega
  simp only [report_step, hne', Bool.false_eq_true, if_false]
  exact countReports_send _ entries hlen2

/-- C3 as stated is false: with an empty kill-match batch the task never
calls `_send_enemy_kills_table` (death_checker.py:76-83), so publishing the
same empty batch twice into an empty channel leaves ZERO live report
messages, not exactly one. -/
theorem claim_c3_counterexample :
    report_step (report_step [] []) [] = []
    ∧ countReports (report_step (report_step [] []) []) = 0 := by
  exact ⟨rfl, rfl⟩

/-- C3 witness: one concrete non-empty batch published twice into an empty
channel keeps exactly one live report. -/
theorem claim_c3_witness :
    ([sampleEntry] ≠ ([] : List KillEntry))
    ∧ ([] : List Message).length ≤ 49
    ∧ countReports (report_step [] [sampleEntry]) = 1
    ∧ countReports (report_step (report_step [] [sampleEntry]) [sampleEntry]) = 1 := by
  refine ⟨by decide, by decide, ?_, ?_⟩
  · exact (claim_c3_replace_in_place [] [sampleEntry] (by decide) (by decide)).1
  · exact (claim_c3_replace_in_place [] [sampleEntry] (by decide) (by decide)).2

/-- C5 (amended): the fan-out result vector has one slot per character,
index-aligned — slot i is exactly the per-character task outcome for
character i, so one character's failure cannot disturb another's slot — but
the per-slot unit is the whole task, NOT the network fetch: a character
whose fetch raised gets a SUCCESSFUL empty slot, because
`get_character_deaths_async` swallows every exception and returns `[]`. -/
theorem claim_c5_slots (net : Str → Except String (Option (List DeathRow)))
    (dparse : Str → TimeParse) (now : Int) (enemy_names : List Str)
    (chars : List Character) :
    (gatherSlots (process_character_deaths net dparse now enemy_names) chars).length
        = chars.length
    ∧ (∀ i : Nat,
        (gatherSlots (process_character_deaths net dparse now enemy_names) chars)[i]?
          = (chars[i]?).map (process_character_deaths net dparse now enemy_names))
    ∧ (∀ (c : Character) (e : String), net c.name = .error e →
        process_character_deaths net dparse now enemy_names c = .ok []) := by
  refine ⟨by simp [gatherSlots], fun i => ?_, fun c e he => ?_⟩
  · simp [gatherSlots]
  · unfold process_character_deaths process_character_deaths_traced
    by_cases h : c.name = []
    · simp [h]
    · simp [h, he, get_character_deaths_async, processDeaths]

/-- C5 as stated is false: with three characters where fetch #2 raises a
network error, slot 2 is NOT a failure — it is a successful empty record
list, because the async scraper catches the exception and returns `[]`
(tibiantis_scraper.py:299-301). -/
theorem claim_c5_counterexample :
    net3 bob.name = .error "httpx.ConnectError: network failure"
    ∧ gatherSlots (process_character_deaths net3 dparse0 now0 enemy0) [alice, bob, carol]
      = [.ok [{ character_name := "alice".data, time := some (.aware 42800),
                killer := "Killed by Evil Bob.".data }],
         .ok [],
         .ok [{ character_name := "carol".data, time := some (.aware 42800),
                killer := "Killed by Evil Bob.".data }]] := by
  refine ⟨by decide, by decide⟩

/-- C5 witness: bob's fetch raises, and the amended theorem turns that into a
successful empty slot. -/
theorem claim_c5_witness :
    net3 bob.name = .error "httpx.ConnectError: network failure"
    ∧ process_character_deaths net3 dparse0 now0 enemy0 bob = .ok [] := by
  refine ⟨by decide, ?_⟩
  exact (claim_c5_slots net3 dparse0 now0 enemy0 [alice, bob, carol]).2.2 bob
    "httpx.ConnectError: network failure" (by decide)

/-- C6: when every timestamp is unknown or offset-aware (the shape CEST/CET
rows produce), the per-character loop equals "filter to the trailing
12-hour window, then match": an event is discarded exactly when its
timestamp is unknown or strictly older than `now - 12h` (so a timestamp
12h + 1s old fails `now - 43200 ≤ t` and is excluded, while one 11h59m old
satisfies it and is included). -/
theorem claim_c6_window (now : Int) (cn : Str) (enemy_names : List Str)
    (ds : List Death) (h : ∀ d ∈ ds, timeAwareOrNone d = true) :
    processDeaths now cn enemy_names ds
      = .ok (((ds.filter (keptDeath now)).map (matchEntriesFor cn enemy_names)).flatten) := by
  induction ds with
  | nil => rfl
  | cons d ds ih =>
    have hd : timeAwareOrNone d = true := h d (List.mem_cons_self d ds)
    have hds : ∀ x ∈ ds, timeAwareOrNone x = true :=
      fun x hx => h x (List.mem_cons_of_mem d hx)
    have ih' := ih hds
    cases htime : d.time with
    | none =>
      have hkept : keptDeath now d = false := by simp [keptDeath, htime]
      simp [processDeaths, htime, hkept, List.filter_cons, ih']
    | some tm =>
      cases tm with
      | naive t =>
        exfalso
        rw [timeAwareOrNone, htime] at hd
        exact Bool.false_ne_true hd
      | aware t =>
        by_cases hlt : t < now - 43200
        · have hkept : keptDeath now d = false := by
            simp [keptDeath, htime]
            omega
          simp [processDeaths, htime, pyLt, hlt, hkept, List.filter_cons, ih']
        · have hkept : keptDeath now d = true := by
            simp [keptDeath, htime]
            omega
          simp [processDeaths, htime, pyLt, hlt, hkept, List.filter_cons, ih']

/-- C6 witness: a death 12h + 1s old is excluded, one 11h59m old is included
and matched. -/
theorem claim_c6_witness :
    (∀ d ∈ [deathOld, deathFresh], timeAwareOrNone d = true)
    ∧ keptDeath now0 deathOld = false
    ∧ keptDeath now0 deathFresh = true
    ∧ processDeaths now0 ("victim".data) enemy0 [deathOld, deathFresh]
      = .ok ((([deathOld, deathFresh].filter (keptDeath now0)).map
          (matchEntriesFor ("victim".data) enemy0)).flatten) := by
  refine ⟨by decide, by decide, by decide, ?_⟩
  exact claim_c6_window now0 ("victim".data) enemy0 [deathOld, deathFresh] (by decide)

/-- C7: an in-window death event with at least one candidate killer in the
enemy set emits exactly ONE EnemyKillMatch — carrying the original
(unlowered) killer text, the victim's name and the event's timestamp — even
when several candidates are enemies (checking stops at the first hit). -/
theorem claim_c7_first_hit (now t : Int) (cn : Str) (enemy_names : List Str)
    (d : Death) (htime : d.time = some (.aware t)) (hwin : now - 43200 ≤ t)
    (cands : List Str) (hext : extract_candidate_killers d.killer = some cands)
    (hhit : cands.any (fun kn => enemy_names.contains kn) = true) :
    processDeaths now cn enemy_names [d]
      = .ok [{ character_name := cn, time := d.time, killer := d.killer }] := by
  have hlt : ¬ t < now - 43200 := by omega
  have hmatch : matchEntriesFor cn enemy_names d
      = [{ character_name := cn, time := d.time, killer := d.killer }] := by
    unfold matchEntriesFor
    rw [hext]
    simp only [hhit]
    rfl
  simp [processDeaths, htime, pyLt, hlt, hmatch]

/-- C7 witness: "Killed by Evil Bob and Evil Alice." with BOTH names in the
enemy set still yields exactly one match, with the original text. -/
theorem claim_c7_witness :
    extract_candidate_killers deathDouble.killer
      = some ["evil bob".data, "evil alice".data]
    ∧ processDeaths now0 ("victim".data) bothEnemies [deathDouble]
      = .ok [{ character_name := "victim".data, time := deathDouble.time,
               killer := deathDouble.killer }] := by
  refine ⟨by decide, ?_⟩
  exact claim_c7_first_hit now0 42800 ("victim".data) bothEnemies deathDouble rfl
    (by decide) ["evil bob".data, "evil alice".data] (by decide) (by decide)

/-- C8: a death-log region with N data rows parses to exactly N DeathEvents,
in row order — the i-th event carries the i-th row's parsed timestamp and
its killer cell text (the only transformation is the whitespace trim of the
cell text extraction, so killer cells without surrounding whitespace are
carried verbatim) — and an absent region yields the empty list, not an
error. -/
theorem claim_c8_roundtrip (dparse : Str → TimeParse) (rows : List DeathRow) :
    parse_death_data dparse none = []
    ∧ (parse_death_data dparse (some rows)).length = rows.length
    ∧ (∀ i : Nat, (parse_death_data dparse (some rows))[i]?
        = (rows[i]?).map (fun r =>
            { time := parseDeathTime (dparse (pyStrip r.timeRaw)),
              killer := pyStrip r.killerRaw }))
    ∧ ((∀ r ∈ rows, pyStrip r.killerRaw = r.killerRaw) →
        (parse_death_data dparse (some rows)).map Death.killer
          = rows.map DeathRow.killerRaw) := by
  refine ⟨rfl, by simp [parse_death_data], fun i => by simp [parse_death_data], fun h => ?_⟩
  simp only [parse_death_data, List.map_map]
  exact List.map_congr_left (fun r hr => h r hr)

/-- C8 witness: a concrete two-row table parses to two events in order, with
killer texts carried verbatim. -/
theorem claim_c8_witness :
    (parse_death_data dparse0 (some deathRows0)).length = deathRows0.length
    ∧ (∀ r ∈ deathRows0, pyStrip r.killerRaw = r.killerRaw)
    ∧ (parse_death_data dparse0 (some deathRows0)).map Death.killer
        = deathRows0.map DeathRow.killerRaw := by
  refine ⟨by decide, by decide, ?_⟩
  exact (claim_c8_roundtrip dparse0 deathRows0).2.2.2 (by decide)

/-- C9 (amended): a failing write logs, propagates the exception to its
caller and leaves the committed store unchanged; `add_by_name`, the base
`update` and `delete_character_by_name` also roll the session back (staged
view restored to the committed rows), but `delete_character_by_id` does NOT
roll back — the failed session keeps the staged deletion. -/
theorem claim_c9_rollback (s : Sess) (c c0 : Character) (nm : Str)
    (scraped : List (Str × AttrVal)) (eid cid : Nat) (u : CharUpdate) :
    add_by_name (some scraped) true s c
      = .error ("DatabaseError: commit failed",
          { committed := s.committed, staged := s.committed })
    ∧ (sessGetById s eid = some c0 →
        repo_update true s eid u
          = .error ("DatabaseError: commit failed",
              { committed := s.committed, staged := s.committed }))
    ∧ (s.staged.find? (fun r => r.name == nm) = some c0 →
        delete_character_by_name true s nm
          = .error ("DatabaseError: commit failed",
              { committed := s.committed, staged := s.committed }))
    ∧ (sessGetById s cid = some c0 →
        delete_character_by_id true s cid
          = .error ("DatabaseError: commit failed",
              { committed := s.committed,
                staged := s.staged.filter (fun r => r.id != c0.id) })) := by
  refine ⟨?_, fun hg => ?_, fun hf => ?_, fun hg => ?_⟩
  · simp [add_by_name, sessAdd, sessCommit, sessRollback]
  · simp [repo_update, hg, sessCommit, sessRollback]
  · simp [delete_character_by_name, hf, sessDelete, sessCommit, sessRollback]
  · simp [delete_character_by_id, hg, sessDelete, sessCommit]

/-- C9 as stated is false: when the commit of `delete_character_by_id`
fails, the exception is propagated but the transaction is NOT rolled back —
the session is left with the deletion still staged (staged ≠ committed),
unlike every other write operation. -/
theorem claim_c9_counterexample :
    delete_character_by_id true { committed := [alice], staged := [alice] } 1
      = .error ("DatabaseError: commit failed", { committed := [alice], staged := [] })
    ∧ ¬ (({ committed := [alice], staged := [] } : Sess).staged
          = ({ committed := [alice], staged := [] } : Sess).committed) := by
  exact ⟨by decide, by decide⟩

/-- C9 witness: concrete failing writes — an add that rolls back and a
delete-by-id that leaves the deletion staged. -/
theorem claim_c9_witness :
    sessGetById { committed := [alice], staged := [alice] } 1 = some alice
    ∧ add_by_name (some ([] : List (Str × AttrVal))) true { committed := [], staged := [] } bob
        = .error ("DatabaseError: commit failed", { committed := [], staged := [] })
    ∧ delete_character_by_id true { committed := [alice], staged := [alice] } 1
        = .error ("DatabaseError: commit failed",
            { committed := [alice],
              staged := [alice].filter (fun r => r.id != alice.id) }) := by
  refine ⟨by decide, ?_, ?_⟩
  · exact (claim_c9_rollback { committed := [], staged := [] } bob alice [] [] 0 1
      { newName := none, newLevel := none }).1
  · exact (claim_c9_rollback { committed := [alice], staged := [alice] } bob alice []
      [] 0 1 { newName := none, newLevel := none }).2.2.2 (by decide)

/-- C10: a death row whose timestamp parses without a recognised timezone
abbreviation is stored as a NAIVE datetime while "now" is aware; the
12-hour window comparison then raises TypeError, the per-character slot
becomes a captured failure, and ALL of that character's death events — the
well-formed matching ones included — are discarded (without the naive row
the same match is reported). -/
theorem claim_c10_naive_poison (now w tb : Int) (cn : Str)
    (enemy_names : List Str) (kg kb : Str) (rows : List DeathRow)
    (dparse : Str → TimeParse) (c : Character)
    (hwin : now - 43200 ≤ w - 7200)
    (cands : List Str) (hext : extract_candidate_killers kg = some cands)
    (hhit : cands.any (fun kn => enemy_names.contains kn) = true)
    (hname : c.name = cn) (hnne : cn ≠ [])
    (hrows : parse_death_data dparse (some rows)
      = [{ time := some (.aware (w - 7200)), killer := kg },
         { time := some (.naive tb), killer := kb }]) :
    parseDeathTime (.plain tb) = some (.naive tb)
    ∧ pyLt (.naive tb) (.aware (now - 43200))
        = .error "TypeError: cannot compare offset-naive and offset-aware datetimes"
    ∧ processDeaths now cn enemy_names
        [{ time := some (.aware (w - 7200)), killer := kg },
         { time := some (.naive tb), killer := kb }]
      = .error "TypeError: cannot compare offset-naive and offset-aware datetimes"
    ∧ processDeaths now cn enemy_names
        [{ time := some (.aware (w - 7200)), killer := kg }]
      = .ok [{ character_name := cn, time := some (.aware (w - 7200)), killer := kg }]
    ∧ process_character_deaths (fun _ => .ok (some rows)) dparse now enemy_names c
      = .error "TypeError: cannot compare offset-naive and offset-aware datetimes" := by
  have hlt : ¬ (w - 7200 < now - 43200) := by omega
  have hmatch : matchEntriesFor cn enemy_names
      { time := some (.aware (w - 7200)), killer := kg }
      = [{ character_name := cn, time := some (.aware (w - 7200)), killer := kg }] := by
    unfold matchEntriesFor
    rw [hext]
    simp only [hhit]
    rfl
  have h3 : processDeaths now cn enemy_names
      [{ time := some (.aware (w - 7200)), killer := kg },
       { time := some (.naive tb), killer := kb }]
      = .error "TypeError: cannot compare offset-naive and offset-aware datetimes" := by
    simp [processDeaths, pyLt, hlt]
  have h4 : processDeaths now cn enemy_names
      [{ time := some (.aware (w - 7200)), killer := kg }]
      = .ok [{ character_name := cn, time := some (.aware (w - 7200)), killer := kg }] := by
    simp [processDeaths, pyLt, hlt, hmatch]
  refine ⟨rfl, rfl, h3, h4, ?_⟩
  have hne2 : c.name.isEmpty = false := by
    cases hcn : c.name with
    | nil => rw [hname] at hcn; exact absurd hcn hnne
    | cons x xs => rfl
  unfold process_character_deaths process_character_deaths_traced
  rw [hne2]
  simp only [Bool.false_eq_true, if_false]
  rw [get_character_deaths_async, hrows, hname]
  exact h3

/-- C10 witness: the concrete two-row table ("t1" CEST, "t2" no
abbreviation) poisons alice's whole slot, while the single good row alone
reports the enemy kill. -/
theorem claim_c10_witness :
    dparse0 ("t2".data) = .plain 999
    ∧ parse_death_data dparse0 (some deathRows0)
      = [{ time := some (.aware (50000 - 7200)), killer := "Killed by Evil Bob.".data },
         { time := some (.naive 999), killer := "Killed by Evil Alice.".data }]
    ∧ process_character_deaths (fun _ => .ok (some deathRows0)) dparse0 now0 enemy0 alice
      = .error "TypeError: cannot compare offset-naive and offset-aware datetimes"
    ∧ processDeaths now0 alice.name enemy0
        [{ time := some (.aware (50000 - 7200)), killer := "Killed by Evil Bob.".data }]
      = .ok [{ character_name := alice.name, time := some (.aware (50000 - 7200)),
               killer := "Killed by Evil Bob.".data }] := by
  refine ⟨by decide, by decide, ?_, ?_⟩
  · exact (claim_c10_naive_poison now0 50000 999 alice.name enemy0
      ("Killed by Evil Bob.".data) ("Killed by Evil Alice.".data) deathRows0 dparse0 alice
      (by decide) ["evil bob".data] (by decide) (by decide) rfl (by decide)
      (by decide)).2.2.2.2
  · exact (claim_c10_naive_poison now0 50000 999 alice.name enemy0
      ("Killed by Evil Bob.".data) ("Killed by Evil Alice.".data) deathRows0 dparse0 alice
      (by decide) ["evil bob".data] (by decide) (by decide) rfl (by decide)
      (by decide)).2.2.2.1
